import Mathlib

set_option maxRecDepth 1000000

/-!
Verification of the go-paymail self-contained transaction verification
engine (BEEF codec, BUMP Merkle-proof model, SPV validator) against its
natural-language specification.  Byte strings are modelled as `List Nat`
with every element below 256; Go slice indexing that may fault is made
explicit via a dedicated result type.
-/

namespace Paymail

/-- Value of one hexadecimal digit character, or `none` if the character is
not a hex digit.  Mirrors the per-character behaviour of Go
`encoding/hex.DecodeString`. -/
def hexDigitVal (c : Char) : Option Nat :=
  if 48 ≤ c.toNat ∧ c.toNat ≤ 57 then some (c.toNat - 48)
  else if 97 ≤ c.toNat ∧ c.toNat ≤ 102 then some (c.toNat - 87)
  else if 65 ≤ c.toNat ∧ c.toNat ≤ 70 then some (c.toNat - 55)
  else none

/-- Decode a list of characters as hex, two digits per byte.  Odd length or
a non-hex character yields `none`, as in Go `hex.DecodeString`. -/
def hexDecodeChars : List Char → Option (List Nat)
  | [] => some []
  | [_] => none
  | hi :: lo :: rest =>
    match hexDigitVal hi, hexDigitVal lo, hexDecodeChars rest with
    | some h, some l, some bs => some ((h * 16 + l) :: bs)
    | _, _, _ => none

/-- Decode a hex string into bytes (Go `hex.DecodeString`). -/
def hexDecode (s : String) : Option (List Nat) :=
  hexDecodeChars s.data

/-- Lower-case hex character for a nibble value. -/
def nibbleChar (n : Nat) : Char :=
  if n < 10 then Char.ofNat (48 + n) else Char.ofNat (87 + n)

/-- Encode bytes as a lower-case hex string (Go `hex.EncodeToString`). -/
def hexEncode (bs : List Nat) : String :=
  ⟨bs.foldr (fun b acc => nibbleChar (b / 16 % 16) :: nibbleChar (b % 16) :: acc) []⟩

/-! ### SHA-256 (FIPS 180-4), executable over byte lists -/

/-- Right rotation of a 32-bit word. -/
def rotr32 (n x : Nat) : Nat :=
  ((x >>> n) ||| (x <<< (32 - n))) % 4294967296

def sSig0 (x : Nat) : Nat := rotr32 7 x ^^^ rotr32 18 x ^^^ (x >>> 3)

def sSig1 (x : Nat) : Nat := rotr32 17 x ^^^ rotr32 19 x ^^^ (x >>> 10)

def bSig0 (x : Nat) : Nat := rotr32 2 x ^^^ rotr32 13 x ^^^ rotr32 22 x

def bSig1 (x : Nat) : Nat := rotr32 6 x ^^^ rotr32 11 x ^^^ rotr32 25 x

/-- SHA-256 round constants (FIPS 180-4 values, written in decimal). -/
def sha256K : List Nat :=
  [1116352408, 1899447441, 3049323471, 3921009573, 961987163, 1508970993,
   2453635748, 2870763221, 3624381080, 310598401, 607225278, 1426881987,
   1925078388, 2162078206, 2614888103, 3248222580, 3835390401, 4022224774,
   264347078, 604807628, 770255983, 1249150122, 1555081692, 1996064986,
   2554220882, 2821834349, 2952996808, 3210313671, 3336571891, 3584528711,
   113926993, 338241895, 666307205, 773529912, 1294757372, 1396182291,
   1695183700, 1986661051, 2177026350, 2456956037, 2730485921, 2820302411,
   3259730800, 3345764771, 3516065817, 3600352804, 4094571909, 275423344,
   430227734, 506948616, 659060556, 883997877, 958139571, 1322822218,
   1537002063, 1747873779, 1955562222, 2024104815, 2227730452, 2361852424,
   2428436474, 2756734187, 3204031479, 3329325298]

/-- SHA-256 initial hash state (decimal). -/
def sha256H0 : List Nat :=
  [1779033703, 3144134277, 1013904242, 2773480762,
   1359893119, 2600822924, 528734635, 1541459225]

/-- Big-endian byte expansion of `v`, `n` bytes wide. -/
def beBytes (n v : Nat) : List Nat :=
  (List.range n).map (fun i => (v >>> (8 * (n - 1 - i))) % 256)

/-- Group bytes into 32-bit big-endian words. -/
def bytesToWords : List Nat → List Nat
  | a :: b :: c :: d :: rest => (((a * 256 + b) * 256 + c) * 256 + d) :: bytesToWords rest
  | _ => []

/-- SHA-256 message padding: append 0x80, zeros, then the 64-bit bit length. -/
def sha256Pad (msg : List Nat) : List Nat :=
  let L := msg.length
  let k := (119 - L % 64) % 64
  msg ++ [0x80] ++ List.replicate k 0 ++ beBytes 8 (L * 8)

/-- Extend the message schedule: `n` more words, `acc` holds the schedule so
far in reverse order. -/
def schedExtend : Nat → List Nat → List Nat
  | 0, acc => acc.reverse
  | n + 1, acc =>
    let w2 := acc.getD 1 0
    let w7 := acc.getD 6 0
    let w15 := acc.getD 14 0
    let w16 := acc.getD 15 0
    let w := (sSig1 w2 + w7 + sSig0 w15 + w16) % 4294967296
    schedExtend n (w :: acc)

/-- One SHA-256 compression round: state `[a,b,c,d,e,f,g,h]`, round input
`(k, w)`. -/
def compressStep (s : List Nat) (kw : Nat × Nat) : List Nat :=
  match s with
  | [a, b, c, d, e, f, g, h] =>
    let ch := (e &&& f) ^^^ ((e ^^^ 4294967295) &&& g)
    let maj := (a &&& b) ^^^ (a &&& c) ^^^ (b &&& c)
    let t1 := (h + bSig1 e + ch + kw.1 + kw.2) % 4294967296
    let t2 := (bSig0 a + maj) % 4294967296
    [(t1 + t2) % 4294967296, a, b, c, (d + t1) % 4294967296, e, f, g]
  | s => s

/-- Process one 512-bit block (given as 16 words) into the running state. -/
def sha256Block (H : List Nat) (ws : List Nat) : List Nat :=
  let sched := schedExtend 48 ws.reverse
  let s := (sha256K.zip sched).foldl compressStep H
  List.zipWith (fun h v => (h + v) % 4294967296) H s

/-- Iterate the compression function over `n` 16-word blocks. -/
def sha256Iter : Nat → List Nat → List Nat → List Nat
  | 0, H, _ => H
  | n + 1, H, ws => sha256Iter n (sha256Block H (ws.take 16)) (ws.drop 16)

/-- SHA-256 of a byte list, as a 32-byte list. -/
def sha256 (msg : List Nat) : List Nat :=
  let ws := bytesToWords (sha256Pad msg)
  let Hf := sha256Iter (ws.length / 16) sha256H0 ws
  Hf.foldr (fun w acc => beBytes 4 w ++ acc) []

/-- Double SHA-256 (Go `crypto.Sha256d`). -/
def sha256d (msg : List Nat) : List Nat := sha256 (sha256 msg)

/-! ### Data model (`beef` package) -/

/-- One node of a Merkle proof level (`beef.BUMPLeaf`): position in the
level, display-order hex hash, transaction-id marker, duplicate marker. -/
structure BUMPLeaf where
  Offset : Nat
  Hash : String := ""
  TxId : Bool := false
  Duplicate : Bool := false
deriving DecidableEq

/-- One Merkle proof (`beef.BUMP`): block height and the levels from the
leaves upward. -/
structure BUMP where
  BlockHeight : Nat
  Path : List (List BUMPLeaf)
deriving DecidableEq

/-- Transaction input, the fields of `sdk.TransactionInput` the validator
reads: referenced previous transaction id (display-order hex), output
index, unlocking script and sequence number. -/
structure TxInput where
  SourceTXID : String
  SourceTxOutIndex : Nat := 0
  UnlockingScript : List Nat := []
  SequenceNumber : Nat
deriving DecidableEq

/-- Transaction output (`sdk.TransactionOutput`). -/
structure TxOutput where
  Satoshis : Nat
  LockingScript : List Nat
deriving DecidableEq

/-- Transaction (`sdk.Transaction`), the fields this engine reads. -/
structure Tx where
  Version : Nat := 1
  Inputs : List TxInput := []
  Outputs : List TxOutput := []
  LockTime : Nat := 0
deriving DecidableEq

/-- One bundle entry (`beef.TxData`): parsed transaction, optional index
into the BUMP list, and the memoized identifier cache (empty string when
not yet computed, as in the Go zero value). -/
structure TxData where
  Transaction : Tx
  BumpIndex : Option Nat
  txID : String := ""
deriving DecidableEq

/-- Decoded envelope (`beef.DecodedBEEF`). -/
structure DecodedBEEF where
  BUMPs : List BUMP
  Transactions : List TxData
deriving DecidableEq

/-- Little-endian byte expansion of `v`, `n` bytes wide. -/
def leBytes (n v : Nat) : List Nat :=
  (List.range n).map (fun i => (v >>> (8 * i)) % 256)

/-- Value of a little-endian byte list. -/
def leVal (bs : List Nat) : Nat :=
  bs.foldr (fun b acc => acc * 256 + b) 0

/-- Compact varint encoding (the wrapped transaction format). -/
def varIntBytes (n : Nat) : List Nat :=
  if n < 0xfd then [n]
  else if n ≤ 0xffff then 0xfd :: leBytes 2 n
  else if n ≤ 0xffffffff then 0xfe :: leBytes 4 n
  else 0xff :: leBytes 8 n

/-- Modelled from the spec: the wrapped SDK's `Transaction.Bytes` (not part
of this repository) — canonical serialization: version, input count, inputs
(reversed source id, output index, script, sequence), output count,
outputs, lock time. -/
def serializeTx (tx : Tx) : List Nat :=
  leBytes 4 tx.Version
    ++ varIntBytes tx.Inputs.length
    ++ tx.Inputs.foldr
        (fun i acc =>
          ((hexDecode i.SourceTXID).getD []).reverse
            ++ leBytes 4 i.SourceTxOutIndex
            ++ varIntBytes i.UnlockingScript.length ++ i.UnlockingScript
            ++ leBytes 4 i.SequenceNumber ++ acc) []
    ++ varIntBytes tx.Outputs.length
    ++ tx.Outputs.foldr
        (fun o acc =>
          leBytes 8 o.Satoshis
            ++ varIntBytes o.LockingScript.length ++ o.LockingScript ++ acc) []
    ++ leBytes 4 tx.LockTime

/-- Modelled from the spec: the wrapped SDK's `Transaction.TxID` —
display-order hex of the double SHA-256 of the canonical serialization. -/
def computeTxID (tx : Tx) : String :=
  hexEncode (sha256d (serializeTx tx)).reverse

/-- Modelled from the spec: `TxData.GetTxID`, the memoized identifier —
the cache when already computed, otherwise derived from the transaction. -/
def TxData.GetTxID (td : TxData) : String :=
  if td.txID.length = 0 then computeTxID td.Transaction else td.txID

/-! ### Merkle primitives (`beef` package, merkletree) -/

/-- Errors of the BUMP model: a missing child leaf during a climb, or a
malformed hex hash handed to the string-typed parent computation. -/
inductive BumpError
  | childNotFound
  | invalidHex
deriving DecidableEq

/-- Modelled from the spec: `merkleTreeParent` (merkletree.go is not part
of the provided sources).  Byte-order behaviour is pinned by the expected
values of TestMerkleTreeParent: reverse both display-order inputs,
double-hash the concatenation, reverse back to display order. -/
def merkleTreeParent (leftNode rightNode : List Nat) : List Nat :=
  (sha256d (leftNode.reverse ++ rightNode.reverse)).reverse

/-- Modelled from the spec: `merkleTreeParentStr`, the hex-string-typed
variant; malformed hex is an error, not a panic. -/
def merkleTreeParentStr (leftNode rightNode : String) : Except BumpError String :=
  match hexDecode leftNode with
  | none => .error .invalidHex
  | some l =>
    match hexDecode rightNode with
    | none => .error .invalidHex
    | some r => .ok (hexEncode (merkleTreeParent l r))

/-! ### BUMP model (`beef` package, bump) -/

/-- Modelled from the spec: `pairOffset` / `getOffsetPair` — the sibling of
an even offset is the next offset, of an odd offset the previous one. -/
def getOffsetPair (offset : Nat) : Nat :=
  if offset % 2 = 0 then offset + 1 else offset - 1

/-- Modelled from the spec: `findLeafByOffset` — linear lookup of a leaf by
offset within one level; `none` signals the child is absent. -/
def findLeafByOffset (offset : Nat) (leaves : List BUMPLeaf) : Option BUMPLeaf :=
  leaves.find? (fun leaf => leaf.Offset == offset)

/-- Modelled from the spec: `prepareNodes` — order the pair so the
even-offset leaf is the left node, substituting the other leaf's hash for
any leaf marked duplicate. -/
def prepareNodes (baseLeaf : BUMPLeaf) (offset : Nat) (leafInPair : BUMPLeaf)
    (_newOffset : Nat) : String × String :=
  let baseHash := if baseLeaf.Duplicate then leafInPair.Hash else baseLeaf.Hash
  let pairHash := if leafInPair.Duplicate then baseLeaf.Hash else leafInPair.Hash
  if offset % 2 = 0 then (baseHash, pairHash) else (pairHash, baseHash)

/-- Modelled from the spec: `climbOneLevel` / `calculateFromChildren` —
locate the leaf at `offset` and its pair within the level, fail with the
child-not-found error if either is missing, otherwise return a synthetic
parent leaf at `offset / 2` whose hash is the Merkle parent of the ordered
pair. -/
def calculateFromChildren (offset : Nat) (leaves : List BUMPLeaf) :
    Except BumpError BUMPLeaf :=
  match findLeafByOffset offset leaves with
  | none => .error .childNotFound
  | some baseLeaf =>
    let newOffset := getOffsetPair offset
    match findLeafByOffset newOffset leaves with
    | none => .error .childNotFound
    | some leafInPair =>
      let nodes := prepareNodes baseLeaf offset leafInPair newOffset
      match merkleTreeParentStr nodes.1 nodes.2 with
      | .error e => .error e
      | .ok h => .ok { Offset := offset / 2, Hash := h }

/-- Root-climb errors: the BUMP model errors plus the disagreement of two
proof targets about the block's root. -/
inductive RootError
  | bump (e : BumpError)
  | differentRoots
deriving DecidableEq

/-- Modelled from the spec: the per-leaf climb of `computeMerkleRoot` —
from a level-0 leaf, find the sibling in each successive level, pair-hash,
and continue one level up at half the offset until the top of the path. -/
def climbLevels : List (List BUMPLeaf) → BUMPLeaf → Except BumpError String
  | [], leaf => .ok leaf.Hash
  | level :: rest, leaf =>
    let newOffset := getOffsetPair leaf.Offset
    match findLeafByOffset newOffset level with
    | none => .error .childNotFound
    | some leafInPair =>
      let nodes := prepareNodes leaf leaf.Offset leafInPair newOffset
      match merkleTreeParentStr nodes.1 nodes.2 with
      | .error e => .error e
      | .ok h => climbLevels rest { Offset := leaf.Offset / 2, Hash := h }

/-- Modelled from the spec: one step of the fold of `computeMerkleRoot`
over level-0 leaves — climb for every leaf marked as a transaction id,
keep the first root and reject a disagreeing one. -/
def mergeRootStep (path : List (List BUMPLeaf)) (acc : Except RootError String)
    (leaf : BUMPLeaf) : Except RootError String :=
  match acc with
  | .error e => .error e
  | .ok root =>
    if leaf.TxId then
      match climbLevels path leaf with
      | .error e => .error (.bump e)
      | .ok r =>
        if root = "" then .ok r
        else if root = r then .ok root
        else .error .differentRoots
    else .ok root

/-- Modelled from the spec: `CalculateMerkleRoot` / `computeMerkleRoot` —
climb from every level-0 transaction-id leaf; with no such leaf the proof
anchors nothing and the result is empty, not an error. -/
def BUMP.CalculateMerkleRoot (b : BUMP) : Except RootError String :=
  (b.Path.headD []).foldl (mergeRootStep b.Path) (.ok "")

/-! ### BEEF codec (`beef/beef_tx.go`) -/

/-- The typed error values of `beef_tx.go` (payload-free; the Go wrapping
with `fmt.Errorf` keeps the base error identity). -/
inductive BeefError
  | noBytesForBump
  | noLowestBump
  | insufficientBytesBlockHeight
  | invalidTreeHeight
  | noBytesForPaths
  | insufficientBytesHash
  | insufficientTransactions
  | invalidHexStream
  | invalidMarker
  | insufficientBytesOffset
  | insufficientBytesFlag
  | invalidFlag
  | invalidHasCMPFlag
  | integerOverflow
  | txReadError
deriving DecidableEq

/-- Outcome of a decoding step: a value, a typed error, or a Go runtime
panic from indexing or slicing beyond the buffer. -/
inductive BeefResult (α : Type)
  | ok (a : α)
  | fail (e : BeefError)
  | panics
deriving DecidableEq

/-- Go's `math.MaxInt` on a 64-bit host. -/
def maxGoInt : Nat := 9223372036854775807

/-- Modelled from the spec: the wrapped SDK's `NewVarIntFromBytes` compact
varint reader.  It switches on the first byte and slices the following 2,
4 or 8 bytes without a length check, so a truncated multi-byte varint (or
an empty buffer) is a runtime panic, not an error. -/
def newVarIntFromBytes (bb : List Nat) : BeefResult (Nat × Nat) :=
  match bb with
  | [] => .panics
  | b0 :: rest =>
    if b0 = 0xff then
      if rest.length < 8 then .panics else .ok (leVal (rest.take 8), 9)
    else if b0 = 0xfe then
      if rest.length < 4 then .panics else .ok (leVal (rest.take 4), 5)
    else if b0 = 0xfd then
      if rest.length < 2 then .panics else .ok (leVal (rest.take 2), 3)
    else .ok (b0, 1)

/-- Leaf loop of `decodeBUMPLevel`: read offset varint, flag byte and,
unless the leaf is a duplicate, 32 hash bytes stored reversed. -/
def decodeBUMPLeaves : Nat → List Nat → List BUMPLeaf →
    BeefResult (List BUMPLeaf × List Nat)
  | 0, bs, acc => .ok (acc.reverse, bs)
  | n + 1, bs, acc =>
    if bs.isEmpty then .fail .insufficientBytesOffset
    else
      match newVarIntFromBytes bs with
      | .panics => .panics
      | .fail e => .fail e
      | .ok (offset, used) =>
        match bs.drop used with
        | [] => .fail .insufficientBytesFlag
        | flag :: bs2 =>
          if flag ≠ 0 ∧ flag ≠ 1 ∧ flag ≠ 2 then .fail .invalidFlag
          else if flag = 1 then
            decodeBUMPLeaves n bs2 ({ Offset := offset, Duplicate := true } :: acc)
          else if bs2.length < 32 then .fail .insufficientBytesHash
          else
            decodeBUMPLeaves n (bs2.drop 32)
              ({ Offset := offset, Hash := hexEncode (bs2.take 32).reverse,
                 TxId := flag = 2 } :: acc)

/-- `decodeBUMPLevel`: bounds-check the leaf count against the host int
range, then read that many leaves. -/
def decodeBUMPLevel (nLeaves : Nat) (hexBytes : List Nat) :
    BeefResult (List BUMPLeaf × List Nat) :=
  if nLeaves > maxGoInt then .fail .integerOverflow
  else decodeBUMPLeaves nLeaves hexBytes []

/-- `decodeBUMPPathsFromStream`: one leaf-count varint and one level per
tree-height step. -/
def decodeBUMPPaths : Nat → List Nat → List (List BUMPLeaf) →
    BeefResult (List (List BUMPLeaf) × List Nat)
  | 0, bs, acc => .ok (acc.reverse, bs)
  | n + 1, bs, acc =>
    if bs.isEmpty then .fail .noBytesForPaths
    else
      match newVarIntFromBytes bs with
      | .panics => .panics
      | .fail e => .fail e
      | .ok (nLeaves, used) =>
        match decodeBUMPLevel nLeaves (bs.drop used) with
        | .panics => .panics
        | .fail e => .fail e
        | .ok (level, rest) => decodeBUMPPaths n rest (level :: acc)

/-- Bump loop of `decodeBUMPs`.  The tree-height byte is read with no
length check after the block-height varint (`beefBytes[0]` in the Go
source), so a buffer ending there is a runtime panic. -/
def decodeBUMPLoop : Nat → List Nat → List BUMP → BeefResult (List BUMP × List Nat)
  | 0, bs, acc => .ok (acc.reverse, bs)
  | n + 1, bs, acc =>
    if bs.isEmpty then .fail .insufficientBytesBlockHeight
    else
      match newVarIntFromBytes bs with
      | .panics => .panics
      | .fail e => .fail e
      | .ok (blockHeight, used) =>
        match bs.drop used with
        | [] => .panics
        | treeHeight :: bs2 =>
          if treeHeight > 64 then .fail .invalidTreeHeight
          else
            match decodeBUMPPaths treeHeight bs2 [] with
            | .panics => .panics
            | .fail e => .fail e
            | .ok (paths, rest) =>
              decodeBUMPLoop n rest ({ BlockHeight := blockHeight, Path := paths } :: acc)

/-- `decodeBUMPs`: reject an empty buffer and a zero bump count, then read
that many bumps. -/
def decodeBUMPs (beefBytes : List Nat) : BeefResult (List BUMP × List Nat) :=
  if beefBytes.isEmpty then .fail .noBytesForBump
  else
    match newVarIntFromBytes beefBytes with
    | .panics => .panics
    | .fail e => .fail e
    | .ok (nBump, used) =>
      if nBump = 0 then .fail .noLowestBump
      else decodeBUMPLoop nBump (beefBytes.drop used) []

/-- Read `n` little-endian bytes, or `none` when the buffer is shorter. -/
def readLE (n : Nat) (bs : List Nat) : Option (Nat × List Nat) :=
  if bs.length < n then none else some (leVal (bs.take n), bs.drop n)

/-- Modelled from the spec: the reader-style varint used inside transaction
parsing — a truncated multi-byte varint is an end-of-stream error, not a
panic. -/
def readVarInt (bs : List Nat) : Option (Nat × List Nat) :=
  match bs with
  | [] => none
  | b0 :: rest =>
    if b0 = 0xff then readLE 8 rest
    else if b0 = 0xfe then readLE 4 rest
    else if b0 = 0xfd then readLE 2 rest
    else some (b0, rest)

/-- Modelled from the spec: parsing of `n` serialized transaction inputs. -/
def readInputs : Nat → List Nat → Option (List TxInput × List Nat)
  | 0, bs => some ([], bs)
  | n + 1, bs => do
    let txid := bs.take 32
    if bs.length < 32 then none
    else
      let bs := bs.drop 32
      let (vout, bs) ← readLE 4 bs
      let (slen, bs) ← readVarInt bs
      if bs.length < slen then none
      else
        let script := bs.take slen
        let bs := bs.drop slen
        let (seqn, bs) ← readLE 4 bs
        let (rest, bs2) ← readInputs n bs
        some ({ SourceTXID := hexEncode txid.reverse, SourceTxOutIndex := vout,
                UnlockingScript := script, SequenceNumber := seqn } :: rest, bs2)

/-- Modelled from the spec: parsing of `n` serialized transaction outputs. -/
def readOutputs : Nat → List Nat → Option (List TxOutput × List Nat)
  | 0, bs => some ([], bs)
  | n + 1, bs => do
    let (sat, bs) ← readLE 8 bs
    let (slen, bs) ← readVarInt bs
    if bs.length < slen then none
    else
      let script := bs.take slen
      let bs := bs.drop slen
      let (rest, bs2) ← readOutputs n bs
      some ({ Satoshis := sat, LockingScript := script } :: rest, bs2)

/-- Modelled from the spec: the wrapped SDK's `NewTransactionFromStream`
over the standard serialized transaction format — version, input count,
inputs, output count, outputs, lock time.  Truncation is a typed error. -/
def readTxFromStream (bs : List Nat) : Option (Tx × Nat) := do
  let (version, r1) ← readLE 4 bs
  let (nIn, r2) ← readVarInt r1
  let (inputs, r3) ← readInputs nIn r2
  let (nOut, r4) ← readVarInt r3
  let (outputs, r5) ← readOutputs nOut r4
  let (lockTime, r6) ← readLE 4 r5
  some ({ Version := version, Inputs := inputs, Outputs := outputs,
          LockTime := lockTime }, bs.length - r6.length)

/-- Transaction loop of `decodeTransactionsWithPathIndexes`.  The
bump-presence flag is read with `bytes[0]` and no length check, so a
buffer ending right after a transaction is a runtime panic. -/
def decodeTxLoop : Nat → List Nat → List TxData → BeefResult (List TxData)
  | 0, _, acc => .ok acc.reverse
  | n + 1, bs, acc =>
    match readTxFromStream bs with
    | none => .fail .txReadError
    | some (tx, used) =>
      match bs.drop used with
      | [] => .panics
      | flag :: rest =>
        if flag = 1 then
          match newVarIntFromBytes rest with
          | .panics => .panics
          | .fail e => .fail e
          | .ok (v, used2) =>
            decodeTxLoop n (rest.drop used2)
              ({ Transaction := tx, BumpIndex := some v } :: acc)
        else if flag = 0 then
          decodeTxLoop n rest ({ Transaction := tx, BumpIndex := none } :: acc)
        else .fail .invalidHasCMPFlag

/-- `decodeTransactionsWithPathIndexes`: the transaction-count varint is
read with no length check (a panic on an empty buffer), fewer than two
transactions are rejected, and the count is bounds-checked against the
host int range. -/
def decodeTransactionsWithPathIndexes (bs : List Nat) : BeefResult (List TxData) :=
  match newVarIntFromBytes bs with
  | .panics => .panics
  | .fail e => .fail e
  | .ok (nTransactions, used) =>
    if nTransactions < 2 then .fail .insufficientTransactions
    else if nTransactions > maxGoInt then .fail .integerOverflow
    else decodeTxLoop nTransactions (bs.drop used) []

/-- `validateMarker`: the two bytes after the version must be 0xBE 0xEF. -/
def validateMarkerBytes (bs : List Nat) : Bool :=
  match bs with
  | b0 :: b1 :: _ => b0 = 0xBE ∧ b1 = 0xEF
  | _ => false

/-- `extractBytesWithoutVersionAndMarker`: hex-decode, require at least
four bytes, strip the version, check and strip the marker. -/
def extractBytesWithoutVersionAndMarker (hexStream : String) :
    Except BeefError (List Nat) :=
  match hexDecode hexStream with
  | none => .error .invalidHexStream
  | some bs =>
    if bs.length < 4 then .error .invalidHexStream
    else
      let bs2 := bs.drop 2
      if validateMarkerBytes bs2 then .ok (bs2.drop 2)
      else .error .invalidMarker

/-- `DecodeBEEF`: strip version and marker, decode the BUMPs, decode the
transactions with their path indexes. -/
def DecodeBEEF (beefHex : String) : BeefResult DecodedBEEF :=
  match extractBytesWithoutVersionAndMarker beefHex with
  | .error e => .fail e
  | .ok bs =>
    match decodeBUMPs bs with
    | .panics => .panics
    | .fail e => .fail e
    | .ok (bumps, remaining) =>
      match decodeTransactionsWithPathIndexes remaining with
      | .panics => .panics
      | .fail e => .fail e
      | .ok txs => .ok { BUMPs := bumps, Transactions := txs }

/-- `GetLatestTx`: the Go source indexes the transaction list at its last
position with no emptiness check; the access is modelled as optional. -/
def DecodedBEEF.GetLatestTx (d : DecodedBEEF) : Option Tx :=
  (d.Transactions[d.Transactions.length - 1]?).map (·.Transaction)

/-- Payload of an ok result, with a fallback value. -/
def BeefResult.okD (r : BeefResult α) (dflt : α) : α :=
  match r with
  | .ok a => a
  | _ => dflt

/-! ### SPV validator (`spv` package) -/

/-- The typed SPV validation errors this development distinguishes. -/
inductive SpvError
  | invalidLockTime
  | noMatchingTransactionsForInput
  | invalidScript
deriving DecidableEq

/-- Modelled from the spec: `validateLockTime` — a zero lock time is
accepted unconditionally; a nonzero lock time is accepted only when every
input's sequence number is the maximum 0xFFFFFFFF. -/
def validateLockTime (tx : Tx) : Except SpvError Unit :=
  if tx.LockTime ≠ 0 then
    if tx.Inputs.all (fun i => i.SequenceNumber == 0xffffffff) then .ok ()
    else .error .invalidLockTime
  else .ok ()

/-- Modelled from the spec: `findParentForInput` — the bundle transaction
whose identifier matches the input's referenced previous transaction. -/
def findParentForInput (input : TxInput) (parentTxs : List TxData) : Option TxData :=
  parentTxs.find? (fun td => td.GetTxID == input.SourceTXID)

/-- Input loop of `validateScripts`, with the running input index; the
external script engine is the opaque capability `verify`. -/
def validateScriptsLoop (verify : Tx → Tx → Nat → Bool) (tx : Tx)
    (inputTxs : List TxData) : Nat → List TxInput → Except SpvError Unit
  | _, [] => .ok ()
  | i, input :: rest =>
    match findParentForInput input inputTxs with
    | none => .error .noMatchingTransactionsForInput
    | some parent =>
      if verify tx parent.Transaction i then
        validateScriptsLoop verify tx inputTxs (i + 1) rest
      else .error .invalidScript

/-- `validateScripts`: for each input in order, find the parent transaction
in the bundle (failing with the no-matching-transaction error when absent)
and delegate to the script engine, failing fast with the invalid-script
error. -/
def validateScripts (verify : Tx → Tx → Nat → Bool) (tx : Tx)
    (inputTxs : List TxData) : Except SpvError Unit :=
  validateScriptsLoop verify tx inputTxs 0 tx.Inputs

/-- Modelled from the spec: `existsInBumps` — within the BUMP selected by
the transaction's bump index, look for a level-0 leaf carrying the
transaction's identifier; any absence (index out of range, empty BUMP
collection, missing level) is "not found", never a panic. -/
def existsInBumps (td : TxData) (bumps : List BUMP) : Bool :=
  match td.BumpIndex with
  | none => false
  | some idx =>
    match bumps[idx]? with
    | none => false
    | some bump => (bump.Path.headD []).any (fun leaf => leaf.Hash == td.GetTxID)

/-! ### Helper lemmas -/

theorem merkleTreeParentStr_error_eq (a b : String) (e : BumpError)
    (h : merkleTreeParentStr a b = .error e) : e = .invalidHex := by
  unfold merkleTreeParentStr at h
  cases ha : hexDecode a with
  | none => rw [ha] at h; cases h; rfl
  | some l =>
    rw [ha] at h
    cases hb : hexDecode b with
    | none => rw [hb] at h; cases h; rfl
    | some r => rw [hb] at h; cases h

theorem foldl_mergeRootStep_no_txid (path : List (List BUMPLeaf)) :
    ∀ leaves : List BUMPLeaf, (∀ leaf ∈ leaves, leaf.TxId = false) →
      leaves.foldl (mergeRootStep path) (Except.ok "") = Except.ok ""
  | [], _ => rfl
  | leaf :: rest, h => by
    have h0 : leaf.TxId = false := h leaf (by simp)
    have hstep : mergeRootStep path (Except.ok "") leaf = Except.ok "" := by
      simp [mergeRootStep, h0]
    simp only [List.foldl, hstep]
    exact foldl_mergeRootStep_no_txid path rest (fun l hl => h l (by simp [hl]))

/-! ### Claim theorems -/

/-- Claim C2: the locktime/sequence finality check accepts every
transaction with zero lock time; with nonzero lock time it accepts exactly
when every input's sequence number is 0xFFFFFFFF, rejecting otherwise with
the lock-time error; a transaction with no inputs and nonzero lock time is
vacuously accepted. -/
theorem validateLockTime_spec (tx : Tx) :
    (validateLockTime tx = .ok () ↔
      tx.LockTime = 0 ∨ ∀ i ∈ tx.Inputs, i.SequenceNumber = 0xffffffff) ∧
    (tx.LockTime ≠ 0 → (∃ i ∈ tx.Inputs, i.SequenceNumber ≠ 0xffffffff) →
      validateLockTime tx = .error .invalidLockTime) ∧
    (tx.Inputs = [] → validateLockTime tx = .ok ()) := by
  unfold validateLockTime
  refine ⟨?_, ?_, ?_⟩
  · by_cases h : tx.LockTime = 0
    · simp [h]
    · by_cases ha : ∀ i ∈ tx.Inputs, i.SequenceNumber = 0xffffffff
      · simp [h, ha, List.all_eq_true]
      · have : ¬ tx.Inputs.all (fun i => i.SequenceNumber == 0xffffffff) = true := by
          simpa [List.all_eq_true] using ha
        simp only [if_neg h, h]
        simp [this, ha, h]
  · intro h ⟨i, hi, hs⟩
    have : ¬ tx.Inputs.all (fun i => i.SequenceNumber == 0xffffffff) = true := by
      simp only [List.all_eq_true, beq_iff_eq]
      exact fun hall => hs (hall i hi)
    simp [h, this]
  · intro h
    simp [h]

/-- Claim C2 witness: the spec examples — lock time 500000 with both
sequences at the maximum is accepted, the same lock time with one
non-maximum sequence is rejected, and a transaction without inputs and
nonzero lock time is accepted. -/
theorem validateLockTime_spec_witness :
    validateLockTime ⟨1, [⟨"", 0, [], 4294967295⟩, ⟨"", 0, [], 4294967295⟩], [], 500000⟩
        = .ok () ∧
    validateLockTime ⟨1, [⟨"", 0, [], 4294967295⟩, ⟨"", 0, [], 1⟩], [], 500000⟩
        = .error .invalidLockTime ∧
    validateLockTime ⟨1, [], [], 500000⟩ = .ok () :=
  ⟨(validateLockTime_spec ⟨1, [⟨"", 0, [], 4294967295⟩, ⟨"", 0, [], 4294967295⟩], [], 500000⟩).1.mpr
      (Or.inr (by decide)),
    (validateLockTime_spec ⟨1, [⟨"", 0, [], 4294967295⟩, ⟨"", 0, [], 1⟩], [], 500000⟩).2.1
      (by decide) ⟨⟨"", 0, [], 1⟩, by decide, by decide⟩,
    (validateLockTime_spec ⟨1, [], [], 500000⟩).2.2 rfl⟩

/-- Claim C3 counterexample: the byte-level Merkle parent function does
not return the plain double hash of the two inputs' concatenation (shown
on the 32-byte pair of the repository's own test vectors), and it does not
treat empty inputs as a fixed all-zero 32-byte value (the empty-input
parent differs from the parent of two all-zero 32-byte nodes). -/
theorem merkleTreeParent_not_plain_doubleHash :
    merkleTreeParent
        ((hexDecode "0dc75b4efeeddb95d8ee98ded75d781fcf95d35f9d88f7f1ce54a77a0c7c50fe").getD [])
        ((hexDecode "3ecead27a44d013ad1aae40038acbb1883ac9242406808bb4667c15b4f164eac").getD [])
      ≠ sha256d
        (((hexDecode "0dc75b4efeeddb95d8ee98ded75d781fcf95d35f9d88f7f1ce54a77a0c7c50fe").getD [])
          ++ ((hexDecode "3ecead27a44d013ad1aae40038acbb1883ac9242406808bb4667c15b4f164eac").getD [])) ∧
    merkleTreeParent [] [] ≠ merkleTreeParent (List.replicate 32 0) (List.replicate 32 0) := by
  constructor
  · decide
  · decide

/-- Claim C3 amended: the Merkle parent of two display-order nodes is the
byte-reversed double hash of the concatenation of the byte-reversed
inputs, reproducing the repository test vectors for a distinct pair and an
identical pair; empty or absent inputs are treated as zero-length byte
strings (not as 32 zero bytes), both yielding the same defined parent — the
reversed double hash of the empty string — rather than an error. -/
theorem merkleTreeParent_display_order_doubleHash :
    (∀ l r : List Nat, merkleTreeParent l r = (sha256d (l.reverse ++ r.reverse)).reverse) ∧
    merkleTreeParent
        ((hexDecode "0dc75b4efeeddb95d8ee98ded75d781fcf95d35f9d88f7f1ce54a77a0c7c50fe").getD [])
        ((hexDecode "3ecead27a44d013ad1aae40038acbb1883ac9242406808bb4667c15b4f164eac").getD [])
      = (hexDecode "31bdeeb51e5f4565dea35a41d3c4e463bd7c89ba129dbe2c8437683f24593559").getD [] ∧
    merkleTreeParent
        ((hexDecode "5745cf28cd3a31703f611fb80b5a080da55acefa4c6977b21917d1ef95f34fbc").getD [])
        ((hexDecode "5745cf28cd3a31703f611fb80b5a080da55acefa4c6977b21917d1ef95f34fbc").getD [])
      = (hexDecode "300e15c914d9a5b290c516fafae4ed2cbcf7ae704ca8bfa1ba1e5ec2cfccbdd3").getD [] ∧
    merkleTreeParent [] []
      = (hexDecode "56944c5d3f98413ef45cf54545538103cc9f298e0575820ad3591376e2e0f65d").getD [] ∧
    merkleTreeParent [] [] = (sha256d []).reverse := by
  refine ⟨fun l r => rfl, by decide, by decide, by decide, by decide⟩

/-- Claim C7: prepareNodes returns the even-offset leaf as the left node
and the odd-offset leaf as the right node; a leaf marked duplicate has its
position filled with the other leaf's hash, and when both leaves are
duplicates each position receives the other leaf's hash, a defined result. -/
theorem prepareNodes_spec (base pair : BUMPLeaf) (off : Nat) :
    (off % 2 = 0 → base.Duplicate = false → pair.Duplicate = false →
      prepareNodes base off pair (getOffsetPair off) = (base.Hash, pair.Hash)) ∧
    (off % 2 = 1 → base.Duplicate = false → pair.Duplicate = false →
      prepareNodes base off pair (getOffsetPair off) = (pair.Hash, base.Hash)) ∧
    (off % 2 = 0 → base.Duplicate = true → pair.Duplicate = false →
      prepareNodes base off pair (getOffsetPair off) = (pair.Hash, pair.Hash)) ∧
    (off % 2 = 0 → base.Duplicate = false → pair.Duplicate = true →
      prepareNodes base off pair (getOffsetPair off) = (base.Hash, base.Hash)) ∧
    (off % 2 = 0 → base.Duplicate = true → pair.Duplicate = true →
      prepareNodes base off pair (getOffsetPair off) = (pair.Hash, base.Hash)) := by
  refine ⟨?_, ?_, ?_, ?_, ?_⟩ <;>
    · intro h1 h2 h3
      simp [prepareNodes, h1, h2, h3]

/-- Claim C7 witness: the five rows of the repository's prepareNodes test
table, each obtained from the corresponding conjunct of the theorem. -/
theorem prepareNodes_spec_witness :
    prepareNodes ⟨0, "baseHash", false, false⟩ 0 ⟨1, "pairHash", false, false⟩ (getOffsetPair 0)
        = ("baseHash", "pairHash") ∧
    prepareNodes ⟨1, "baseHash", false, false⟩ 1 ⟨0, "pairHash", false, false⟩ (getOffsetPair 1)
        = ("pairHash", "baseHash") ∧
    prepareNodes ⟨0, "baseHash", false, true⟩ 0 ⟨1, "pairHash", false, false⟩ (getOffsetPair 0)
        = ("pairHash", "pairHash") ∧
    prepareNodes ⟨0, "baseHash", false, false⟩ 0 ⟨1, "pairHash", false, true⟩ (getOffsetPair 0)
        = ("baseHash", "baseHash") ∧
    prepareNodes ⟨0, "baseHash", false, true⟩ 0 ⟨1, "pairHash", false, true⟩ (getOffsetPair 0)
        = ("pairHash", "baseHash") :=
  ⟨(prepareNodes_spec ⟨0, "baseHash", false, false⟩ ⟨1, "pairHash", false, false⟩ 0).1
      rfl rfl rfl,
    ((prepareNodes_spec ⟨1, "baseHash", false, false⟩ ⟨0, "pairHash", false, false⟩ 1).2).1
      rfl rfl rfl,
    (((prepareNodes_spec ⟨0, "baseHash", false, true⟩ ⟨1, "pairHash", false, false⟩ 0).2).2).1
      rfl rfl rfl,
    ((((prepareNodes_spec ⟨0, "baseHash", false, false⟩ ⟨1, "pairHash", false, true⟩ 0).2).2).2).1
      rfl rfl rfl,
    ((((prepareNodes_spec ⟨0, "baseHash", false, true⟩ ⟨1, "pairHash", false, true⟩ 0).2).2).2).2
      rfl rfl rfl⟩

/-- Claim C8: computing the Merkle root of a BUMP whose level-0 leaves
carry no transaction-id marker returns the empty root with no error. -/
theorem calculateMerkleRoot_no_txid_empty (b : BUMP)
    (h : ∀ leaf ∈ b.Path.headD [], leaf.TxId = false) :
    b.CalculateMerkleRoot = .ok "" := by
  unfold BUMP.CalculateMerkleRoot
  exact foldl_mergeRootStep_no_txid b.Path (b.Path.headD []) h

/-- Claim C8 witness: the repository test's BUMP with two non-target
level-0 leaves computes the empty root. -/
theorem calculateMerkleRoot_no_txid_empty_witness :
    (∀ leaf ∈ (BUMP.mk 100 [[⟨0, "hash1", false, false⟩, ⟨1, "hash2", false, false⟩]]).Path.headD [],
      leaf.TxId = false) ∧
    (BUMP.mk 100 [[⟨0, "hash1", false, false⟩, ⟨1, "hash2", false, false⟩]]).CalculateMerkleRoot
      = .ok "" :=
  ⟨by decide,
    calculateMerkleRoot_no_txid_empty
      (BUMP.mk 100 [[⟨0, "hash1", false, false⟩, ⟨1, "hash2", false, false⟩]]) (by decide)⟩

/-- Claim C9: the Merkle-anchoring lookup reports found exactly when the
bump index selects an existing BUMP whose level-0 leaves contain a leaf
carrying the transaction's identifier; an out-of-range index, an empty
collection, a missing level-0 leaf or a hash mismatch all yield false,
never a panic. -/
theorem existsInBumps_spec (td : TxData) (bumps : List BUMP) :
    existsInBumps td bumps = true ↔
      ∃ idx bump, td.BumpIndex = some idx ∧ bumps[idx]? = some bump ∧
        ∃ leaf ∈ bump.Path.headD [], leaf.Hash = td.GetTxID := by
  unfold existsInBumps
  cases h : td.BumpIndex with
  | none => simp
  | some idx =>
    cases hb : bumps[idx]? with
    | none => simp [hb]
    | some bump =>
      simp only [hb, List.any_eq_true, beq_iff_eq]
      constructor
      · rintro ⟨leaf, hmem, heq⟩
        exact ⟨idx, bump, rfl, hb, leaf, hmem, heq⟩
      · rintro ⟨idx2, bump2, hidx, hbump, leaf, hmem, heq⟩
        cases hidx
        rw [hb] at hbump
        cases hbump
        exact ⟨leaf, hmem, heq⟩

/-- Claim C6: climbing one level fails with the child-not-found error
exactly when the leaf at the given offset or its sibling is missing from
the level (so also for an empty or absent level, never a panic); when both
are present and the ordered pair hashes cleanly, the result is a synthetic
parent leaf at half the offset carrying the Merkle parent of the ordered
pair. -/
theorem calculateFromChildren_spec (offset : Nat) (leaves : List BUMPLeaf) :
    (calculateFromChildren offset leaves = .error .childNotFound ↔
      findLeafByOffset offset leaves = none ∨
      findLeafByOffset (getOffsetPair offset) leaves = none) ∧
    (∀ base pair h, findLeafByOffset offset leaves = some base →
      findLeafByOffset (getOffsetPair offset) leaves = some pair →
      merkleTreeParentStr (prepareNodes base offset pair (getOffsetPair offset)).1
          (prepareNodes base offset pair (getOffsetPair offset)).2 = .ok h →
      calculateFromChildren offset leaves = .ok ⟨offset / 2, h, false, false⟩) := by
  constructor
  · cases h1 : findLeafByOffset offset leaves with
    | none => simp [calculateFromChildren, h1]
    | some base =>
      cases h2 : findLeafByOffset (getOffsetPair offset) leaves with
      | none => simp [calculateFromChildren, h1, h2]
      | some pair =>
        cases h3 : merkleTreeParentStr (prepareNodes base offset pair (getOffsetPair offset)).1
            (prepareNodes base offset pair (getOffsetPair offset)).2 with
        | error e =>
          have he : e = .invalidHex := merkleTreeParentStr_error_eq _ _ _ h3
          subst he
          simp [calculateFromChildren, h1, h2, h3]
        | ok hsh => simp [calculateFromChildren, h1, h2, h3]
  · intro base pair h h1 h2 h3
    simp [calculateFromChildren, h1, h2, h3]

/-- Claim C6 witness: the level-0 pair at offsets 20 and 21 from the
repository's test vectors climbs to a parent at offset 10 carrying the
Merkle parent of the ordered pair, and a leaf over an empty level or with
a missing sibling yields the child-not-found error. -/
theorem calculateFromChildren_spec_witness :
    calculateFromChildren 20
        [⟨20, "0dc75b4efeeddb95d8ee98ded75d781fcf95d35f9d88f7f1ce54a77a0c7c50fe", false, false⟩,
         ⟨21, "3ecead27a44d013ad1aae40038acbb1883ac9242406808bb4667c15b4f164eac", true, false⟩]
      = .ok ⟨10, "31bdeeb51e5f4565dea35a41d3c4e463bd7c89ba129dbe2c8437683f24593559", false, false⟩ ∧
    calculateFromChildren 0 ([] : List BUMPLeaf) = .error .childNotFound ∧
    calculateFromChildren 0 [⟨1, "hash1", false, false⟩] = .error .childNotFound ∧
    calculateFromChildren 0 [⟨0, "hash0", false, false⟩] = .error .childNotFound :=
  ⟨(calculateFromChildren_spec 20
        [⟨20, "0dc75b4efeeddb95d8ee98ded75d781fcf95d35f9d88f7f1ce54a77a0c7c50fe", false, false⟩,
         ⟨21, "3ecead27a44d013ad1aae40038acbb1883ac9242406808bb4667c15b4f164eac", true, false⟩]).2
      ⟨20, "0dc75b4efeeddb95d8ee98ded75d781fcf95d35f9d88f7f1ce54a77a0c7c50fe", false, false⟩
      ⟨21, "3ecead27a44d013ad1aae40038acbb1883ac9242406808bb4667c15b4f164eac", true, false⟩
      "31bdeeb51e5f4565dea35a41d3c4e463bd7c89ba129dbe2c8437683f24593559" rfl rfl rfl,
    (calculateFromChildren_spec 0 []).1.mpr (Or.inl rfl),
    (calculateFromChildren_spec 0 [⟨1, "hash1", false, false⟩]).1.mpr (Or.inl rfl),
    (calculateFromChildren_spec 0 [⟨0, "hash0", false, false⟩]).1.mpr (Or.inr rfl)⟩

theorem validateScriptsLoop_cons (verify : Tx → Tx → Nat → Bool) (tx : Tx)
    (bundle : List TxData) (k : Nat) (a : TxInput) (rest : List TxInput) :
    validateScriptsLoop verify tx bundle k (a :: rest) =
      match findParentForInput a bundle with
      | none => .error .noMatchingTransactionsForInput
      | some parent =>
        if verify tx parent.Transaction k then
          validateScriptsLoop verify tx bundle (k + 1) rest
        else .error .invalidScript := rfl

theorem validateScriptsLoop_noMatch (verify : Tx → Tx → Nat → Bool) (tx : Tx)
    (bundle : List TxData) :
    ∀ (inputs : List TxInput) (k i : Nat) (input : TxInput),
      inputs[i]? = some input →
      (∀ j, j < i → ∀ inp, inputs[j]? = some inp →
        ∃ p, findParentForInput inp bundle = some p ∧ verify tx p.Transaction (k + j) = true) →
      findParentForInput input bundle = none →
      validateScriptsLoop verify tx bundle k inputs = .error .noMatchingTransactionsForInput := by
  intro inputs
  induction inputs with
  | nil => intro k i input h; simp at h
  | cons a rest ih =>
    intro k i input hidx hprev hnone
    cases i with
    | zero =>
      simp only [List.getElem?_cons_zero, Option.some_inj] at hidx
      subst hidx
      rw [validateScriptsLoop_cons, hnone]
    | succ m =>
      obtain ⟨p, hp, hv⟩ := hprev 0 (Nat.succ_pos m) a (by simp)
      simp only [Nat.add_zero] at hv
      have step : validateScriptsLoop verify tx bundle k (a :: rest) =
          validateScriptsLoop verify tx bundle (k + 1) rest := by
        rw [validateScriptsLoop_cons, hp]
        simp [hv]
      rw [step]
      apply ih (k + 1) m input (by simpa using hidx) ?_ hnone
      intro j hj inp hinp
      obtain ⟨q, hq, hqv⟩ := hprev (j + 1) (Nat.succ_lt_succ hj) inp (by simpa using hinp)
      refine ⟨q, hq, ?_⟩
      have harith : k + (j + 1) = k + 1 + j := by omega
      rw [harith] at hqv
      exact hqv

theorem validateScriptsLoop_scriptFail (verify : Tx → Tx → Nat → Bool) (tx : Tx)
    (bundle : List TxData) :
    ∀ (inputs : List TxInput) (k i : Nat) (input : TxInput) (p : TxData),
      inputs[i]? = some input →
      (∀ j, j < i → ∀ inp, inputs[j]? = some inp →
        ∃ q, findParentForInput inp bundle = some q ∧ verify tx q.Transaction (k + j) = true) →
      findParentForInput input bundle = some p →
      verify tx p.Transaction (k + i) = false →
      validateScriptsLoop verify tx bundle k inputs = .error .invalidScript := by
  intro inputs
  induction inputs with
  | nil => intro k i input p h; simp at h
  | cons a rest ih =>
    intro k i input p hidx hprev hsome hfail
    cases i with
    | zero =>
      simp only [List.getElem?_cons_zero, Option.some_inj] at hidx
      subst hidx
      simp only [Nat.add_zero] at hfail
      rw [validateScriptsLoop_cons, hsome]
      simp [hfail]
    | succ m =>
      obtain ⟨q, hq, hv⟩ := hprev 0 (Nat.succ_pos m) a (by simp)
      simp only [Nat.add_zero] at hv
      have step : validateScriptsLoop verify tx bundle k (a :: rest) =
          validateScriptsLoop verify tx bundle (k + 1) rest := by
        rw [validateScriptsLoop_cons, hq]
        simp [hv]
      rw [step]
      apply ih (k + 1) m input p (by simpa using hidx) ?_ hsome ?_
      · intro j hj inp hinp
        obtain ⟨q2, hq2, hq2v⟩ := hprev (j + 1) (Nat.succ_lt_succ hj) inp (by simpa using hinp)
        refine ⟨q2, hq2, ?_⟩
        have harith : k + (j + 1) = k + 1 + j := by omega
        rw [harith] at hq2v
        exact hq2v
      · have harith : k + (m + 1) = k + 1 + m := by omega
        rw [harith] at hfail
        exact hfail

/-- Claim C5: when the inputs before position i all resolve to a bundle
parent and pass the script engine, an input at position i whose referenced
previous transaction is absent from the bundle fails with the
no-matching-transaction error (not a script error); when its parent is
present but the engine rejects it, validation stops there with the
invalid-script error — for every engine, so later inputs are never
consulted. -/
theorem validateScripts_spec (verify : Tx → Tx → Nat → Bool) (tx : Tx)
    (bundle : List TxData) :
    (∀ i input, tx.Inputs[i]? = some input →
      (∀ j, j < i → ∀ inp, tx.Inputs[j]? = some inp →
        ∃ p, findParentForInput inp bundle = some p ∧ verify tx p.Transaction j = true) →
      findParentForInput input bundle = none →
      validateScripts verify tx bundle = .error .noMatchingTransactionsForInput) ∧
    (∀ i input p, tx.Inputs[i]? = some input →
      (∀ j, j < i → ∀ inp, tx.Inputs[j]? = some inp →
        ∃ q, findParentForInput inp bundle = some q ∧ verify tx q.Transaction j = true) →
      findParentForInput input bundle = some p →
      verify tx p.Transaction i = false →
      validateScripts verify tx bundle = .error .invalidScript) := by
  constructor
  · intro i input hidx hprev hnone
    exact validateScriptsLoop_noMatch verify tx bundle tx.Inputs 0 i input hidx
      (by simpa using hprev) hnone
  · intro i input p hidx hprev hsome hfail
    exact validateScriptsLoop_scriptFail verify tx bundle tx.Inputs 0 i input p hidx
      (by simpa using hprev) hsome (by simpa using hfail)

/-- Claim C5 witness: a bundle of exactly two transactions; a transaction
whose second input references an identifier absent from the bundle fails
with the no-matching-transaction error under an always-accepting engine,
and a single-input transaction whose parent is present fails with the
invalid-script error under a rejecting engine. -/
theorem validateScripts_spec_witness :
    validateScripts (fun _ _ _ => true)
        ⟨1, [⟨"aa", 0, [], 4294967295⟩, ⟨"cc", 0, [], 4294967295⟩], [], 0⟩
        [⟨⟨1, [], [], 0⟩, none, "aa"⟩, ⟨⟨1, [], [], 0⟩, none, "bb"⟩]
      = .error .noMatchingTransactionsForInput ∧
    validateScripts (fun _ _ _ => false)
        ⟨1, [⟨"aa", 0, [], 4294967295⟩], [], 0⟩
        [⟨⟨1, [], [], 0⟩, none, "aa"⟩, ⟨⟨1, [], [], 0⟩, none, "bb"⟩]
      = .error .invalidScript := by
  constructor
  · refine (validateScripts_spec (fun _ _ _ => true)
      ⟨1, [⟨"aa", 0, [], 4294967295⟩, ⟨"cc", 0, [], 4294967295⟩], [], 0⟩
      [⟨⟨1, [], [], 0⟩, none, "aa"⟩, ⟨⟨1, [], [], 0⟩, none, "bb"⟩]).1
      1 ⟨"cc", 0, [], 4294967295⟩ rfl ?_ (by decide)
    intro j hj inp hinp
    have hj0 : j = 0 := by omega
    subst hj0
    simp only [List.getElem?_cons_zero, Option.some_inj] at hinp
    subst hinp
    exact ⟨⟨⟨1, [], [], 0⟩, none, "aa"⟩, by decide, rfl⟩
  · refine (validateScripts_spec (fun _ _ _ => false)
      ⟨1, [⟨"aa", 0, [], 4294967295⟩], [], 0⟩
      [⟨⟨1, [], [], 0⟩, none, "aa"⟩, ⟨⟨1, [], [], 0⟩, none, "bb"⟩]).2
      0 ⟨"aa", 0, [], 4294967295⟩ ⟨⟨1, [], [], 0⟩, none, "aa"⟩ rfl ?_ (by decide) rfl
    intro j hj inp hinp
    omega

/-- Claim C1: the decoder is not total — the envelope whose buffer ends
immediately after the block-height varint makes the Go source read the
tree-height byte `beefBytes[0]` with no length check, an out-of-bounds
index fault rather than a value or a typed error. -/
theorem decodeBEEF_panics_on_truncated_bump :
    DecodeBEEF "0100beef0105" = .panics := rfl

/-- Claim C4: the decoder rejects a 3-byte buffer, a wrong marker, a zero
bump count, a tree height of 65, a leaf flag of 3, and transaction counts
of 0 and 1, and the six error values are pairwise distinct. -/
theorem decodeBEEF_distinct_rejections :
    DecodeBEEF "010203" = .fail .invalidHexStream ∧
    DecodeBEEF "01000102" = .fail .invalidMarker ∧
    DecodeBEEF "0100beef00" = .fail .noLowestBump ∧
    DecodeBEEF "0100beef010141" = .fail .invalidTreeHeight ∧
    DecodeBEEF "0100beef010101010003" = .fail .invalidFlag ∧
    DecodeBEEF "0100beef01010000" = .fail .insufficientTransactions ∧
    DecodeBEEF "0100beef01010001" = .fail .insufficientTransactions ∧
    List.Pairwise (fun a b => a ≠ b)
      [BeefError.invalidHexStream, BeefError.invalidMarker, BeefError.noLowestBump,
       BeefError.invalidTreeHeight, BeefError.invalidFlag,
       BeefError.insufficientTransactions] :=
  ⟨rfl, rfl, rfl, rfl, rfl, rfl, rfl, by decide⟩

theorem decodeTxLoop_succ (n : Nat) (bs : List Nat) (acc : List TxData) :
    decodeTxLoop (n + 1) bs acc =
      match readTxFromStream bs with
      | none => .fail .txReadError
      | some (tx, used) =>
        match bs.drop used with
        | [] => .panics
        | flag :: rest =>
          if flag = 1 then
            match newVarIntFromBytes rest with
            | .panics => .panics
            | .fail e => .fail e
            | .ok (v, used2) =>
              decodeTxLoop n (rest.drop used2)
                ({ Transaction := tx, BumpIndex := some v } :: acc)
          else if flag = 0 then
            decodeTxLoop n rest ({ Transaction := tx, BumpIndex := none } :: acc)
          else .fail .invalidHasCMPFlag := rfl

theorem decodeTxLoop_length : ∀ (n : Nat) (bs : List Nat) (acc l : List TxData),
    decodeTxLoop n bs acc = .ok l → l.length = n + acc.length := by
  intro n
  induction n with
  | zero =>
    intro bs acc l h
    rw [show decodeTxLoop 0 bs acc = .ok acc.reverse from rfl] at h
    cases h
    simp
  | succ m ih =>
    intro bs acc l h
    rw [decodeTxLoop_succ] at h
    split at h
    · exact BeefResult.noConfusion h
    · split at h
      · exact BeefResult.noConfusion h
      · split at h
        · split at h
          · exact BeefResult.noConfusion h
          · exact BeefResult.noConfusion h
          · have hl := ih _ _ _ h
            simp only [List.length_cons] at hl
            omega
        · split at h
          · have hl := ih _ _ _ h
            simp only [List.length_cons] at hl
            omega
          · exact BeefResult.noConfusion h

theorem decodeTransactions_ok_length (bs : List Nat) (txs : List TxData)
    (h : decodeTransactionsWithPathIndexes bs = .ok txs) : 2 ≤ txs.length := by
  unfold decodeTransactionsWithPathIndexes at h
  split at h
  · exact BeefResult.noConfusion h
  · exact BeefResult.noConfusion h
  · split at h
    · exact BeefResult.noConfusion h
    · split at h
      · exact BeefResult.noConfusion h
      · rename_i hlt _
        have hl := decodeTxLoop_length _ _ _ _ h
        simp only [List.length_nil] at hl
        omega

theorem decodeBUMPLoop_succ (n : Nat) (bs : List Nat) (acc : List BUMP) :
    decodeBUMPLoop (n + 1) bs acc =
      (if bs.isEmpty then .fail .insufficientBytesBlockHeight
       else
        match newVarIntFromBytes bs with
        | .panics => .panics
        | .fail e => .fail e
        | .ok (blockHeight, used) =>
          match bs.drop used with
          | [] => .panics
          | treeHeight :: bs2 =>
            if treeHeight > 64 then .fail .invalidTreeHeight
            else
              match decodeBUMPPaths treeHeight bs2 [] with
              | .panics => .panics
              | .fail e => .fail e
              | .ok (paths, rest) =>
                decodeBUMPLoop n rest
                  ({ BlockHeight := blockHeight, Path := paths } :: acc)) := rfl

theorem decodeBUMPLoop_length : ∀ (n : Nat) (bs : List Nat) (acc out : List BUMP)
    (rem : List Nat), decodeBUMPLoop n bs acc = .ok (out, rem) →
    out.length = n + acc.length := by
  intro n
  induction n with
  | zero =>
    intro bs acc out rem h
    rw [show decodeBUMPLoop 0 bs acc = .ok (acc.reverse, bs) from rfl] at h
    cases h
    simp
  | succ m ih =>
    intro bs acc out rem h
    rw [decodeBUMPLoop_succ] at h
    split at h
    · exact BeefResult.noConfusion h
    · split at h
      · exact BeefResult.noConfusion h
      · exact BeefResult.noConfusion h
      · split at h
        · exact BeefResult.noConfusion h
        · split at h
          · exact BeefResult.noConfusion h
          · split at h
            · exact BeefResult.noConfusion h
            · exact BeefResult.noConfusion h
            · have hl := ih _ _ _ _ h
              simp only [List.length_cons] at hl
              omega

theorem decodeBUMPs_ok_length (bs : List Nat) (bumps : List BUMP) (rem : List Nat)
    (h : decodeBUMPs bs = .ok (bumps, rem)) : 1 ≤ bumps.length := by
  unfold decodeBUMPs at h
  split at h
  · exact BeefResult.noConfusion h
  · split at h
    · exact BeefResult.noConfusion h
    · exact BeefResult.noConfusion h
    · split at h
      · exact BeefResult.noConfusion h
      · rename_i hz
        have hl := decodeBUMPLoop_length _ _ _ _ _ h
        simp only [List.length_nil] at hl
        omega

/-- Claim C10: every successful decode yields at least two transactions
and at least one BUMP, so the latest-transaction accessor reads the last
list position without an out-of-bounds access. -/
theorem decodeBEEF_success_invariants (s : String) (d : DecodedBEEF)
    (h : DecodeBEEF s = .ok d) :
    2 ≤ d.Transactions.length ∧ 1 ≤ d.BUMPs.length ∧
    d.GetLatestTx = d.Transactions.getLast?.map (·.Transaction) ∧
    d.GetLatestTx.isSome := by
  unfold DecodeBEEF at h
  split at h
  · exact BeefResult.noConfusion h
  · split at h
    · exact BeefResult.noConfusion h
    · exact BeefResult.noConfusion h
    · rename_i bs hx bumps rem hb
      split at h
      · exact BeefResult.noConfusion h
      · exact BeefResult.noConfusion h
      · rename_i txs ht
        injection h with h2
        subst h2
        have h2l := decodeTransactions_ok_length _ _ ht
        have h1l := decodeBUMPs_ok_length _ _ _ hb
        have hne : txs ≠ [] := by
          intro hnil
          rw [hnil] at h2l
          simp at h2l
        refine ⟨h2l, h1l, ?_, ?_⟩
        · show (txs[txs.length - 1]?).map (·.Transaction) = txs.getLast?.map (·.Transaction)
          rw [List.getLast?_eq_getElem? txs]
        · show ((txs[txs.length - 1]?).map (·.Transaction)).isSome
          rw [← List.getLast?_eq_getElem? txs]
          simp [List.getLast?_isSome, hne]

/-- Claim C10 witness: a minimal well-formed envelope — one empty BUMP and
two empty transactions — decodes successfully and satisfies the
invariants. -/
theorem decodeBEEF_success_invariants_witness :
    2 ≤ ((DecodeBEEF "0100beef0101000201000000000000000000000100000000000000000000").okD
        ⟨[], []⟩).Transactions.length ∧
    1 ≤ ((DecodeBEEF "0100beef0101000201000000000000000000000100000000000000000000").okD
        ⟨[], []⟩).BUMPs.length ∧
    ((DecodeBEEF "0100beef0101000201000000000000000000000100000000000000000000").okD
        ⟨[], []⟩).GetLatestTx
      = ((DecodeBEEF "0100beef0101000201000000000000000000000100000000000000000000").okD
        ⟨[], []⟩).Transactions.getLast?.map (·.Transaction) ∧
    ((DecodeBEEF "0100beef0101000201000000000000000000000100000000000000000000").okD
        ⟨[], []⟩).GetLatestTx.isSome :=
  decodeBEEF_success_invariants "0100beef0101000201000000000000000000000100000000000000000000"
    ((DecodeBEEF "0100beef0101000201000000000000000000000100000000000000000000").okD ⟨[], []⟩)
    rfl

end Paymail
